import Mathlib

/-!
Verification of the NationsAPI backend gateway.

The repository contains two Express servers:
* `src/unnamed/part_000` (variant A): memory-cache middleware keyed on
  `req.originalUrl`, a rate limiter, `handleApiError`, a listing endpoint with
  search/pagination, and a detail endpoint with a truthiness-based field filter.
* `src/rest-countries-app/backend/server.js` (variant B): bearer-token
  `authMiddleware`, `formatCountry`, and a detail endpoint with a
  fullText-then-fallback upstream fetch and an empty-result 404 check.

The JavaScript is embedded shallowly: JSON values become the inductive
`JValue`, JS truthiness becomes `jsTruthy`, axios results become
`Except AxiosError`, and each route handler becomes a pure function from its
inputs (upstream result, query parameters, cache state) to an HTTP status and
body.  `undefined` and `null` are conflated as `JValue.null` except where a
handler distinguishes them (an absent property is `Option.none`).
-/

/-- A JSON value as manipulated by the JavaScript code.  Numbers are modelled
as integers (the country payloads only carry integral numbers and the claims
never depend on fractional values). -/
inductive JValue where
  | null
  | bool (b : Bool)
  | num (n : Int)
  | str (s : String)
  | arr (elems : List JValue)
  | obj (fields : List (String × JValue))

/-- JS truthiness of a value (`if (v)`), with `null` standing for both
`null` and `undefined`. -/
def jsTruthy : JValue → Bool
  | .null => false
  | .bool b => b
  | .num n => n != 0
  | .str s => s != ""
  | .arr _ => true
  | .obj _ => true

/-- First value bound to key `k` in a JS-object field list (JS objects have
unique keys; lookup takes the first match). -/
def objLookup (fs : List (String × JValue)) (k : String) : Option JValue :=
  (fs.find? (fun p => p.1 == k)).map (fun p => p.2)

/-- Property access `v[k]` on a JS value: `none` models `undefined`
(missing key, or access on a non-object). -/
def jGet : JValue → String → Option JValue
  | .obj fs, k => objLookup fs k
  | _, _ => none

/-- Assignment `o[k] = v` on a JS object: overwrite the existing binding for
`k`, otherwise append the new key at the end (JS key insertion order). -/
def jsObjInsert (fs : List (String × JValue)) (k : String) (v : JValue) :
    List (String × JValue) :=
  if fs.any (fun p => p.1 == k) then
    fs.map (fun p => if p.1 == k then (k, v) else p)
  else
    fs ++ [(k, v)]

/-- JS `hay.includes(sub)` on character lists (JS `String.prototype.includes`). -/
def charsInclude (hay sub : List Char) : Bool :=
  match hay with
  | [] => sub.isEmpty
  | c :: rest => sub.isPrefixOf (c :: rest) || charsInclude rest sub

/-- JS `hay.includes(sub)` on strings. -/
def strIncludes (hay sub : String) : Bool :=
  charsInclude hay.data sub.data

/-- JS `s.split(sep)` for a single-character separator, on character lists:
always returns at least one (possibly empty) piece, like JS `split`. -/
def splitChars (sep : Char) : List Char → List (List Char)
  | [] => [[]]
  | c :: rest =>
    if c == sep then [] :: splitChars sep rest
    else
      match splitChars sep rest with
      | [] => [[c]]
      | piece :: pieces => (c :: piece) :: pieces

/-- JS `s.split(sep)` with a single-character separator. -/
def jsSplitChar (s : String) (sep : Char) : List String :=
  (splitChars sep s.data).map (fun cs => ⟨cs⟩)

/-- JS `s.startsWith(p)`. -/
def jsStartsWith (s p : String) : Bool :=
  p.data.isPrefixOf s.data

/-- An upstream error response (`error.response` on an axios failure). -/
structure ErrorResponse where
  status : Nat
  data : JValue

/-- An axios failure: either the upstream answered with an error status
(`response = some r`), or the request went out but no response arrived
(`response = none`, `requestMade = true`), or the failure happened before a
request was made (`response = none`, `requestMade = false`). -/
structure AxiosError where
  response : Option ErrorResponse
  requestMade : Bool
  message : String

/-! ### Variant A (`src/unnamed/part_000`) -/

/-- Body sent by `handleApiError` when the upstream answered with an error
status: mirrors the upstream details. -/
def upstreamErrorBody (details : JValue) : JValue :=
  .obj [("error", .str "Erro na API externa"), ("details", details)]

/-- Body sent by `handleApiError` when the request got no response. -/
def unavailableBody : JValue :=
  .obj [("error", .str "Serviço indisponível"),
        ("message", .str "A API de países não respondeu")]

/-- Body sent by `handleApiError` for any other failure: a constant, carrying
no internal details. -/
def internalErrorBody : JValue :=
  .obj [("error", .str "Erro interno no servidor")]

/-- The `handleApiError(error, res)` helper of variant A: mirror the upstream status when
a response exists, 503 when the request got no answer, 500 otherwise. -/
def handleApiError (error : AxiosError) : Nat × JValue :=
  match error.response with
  | some r => (r.status, upstreamErrorBody r.data)
  | none =>
    if error.requestMade then (503, unavailableBody)
    else (500, internalErrorBody)

/-- A raw upstream country record as used by the listing filter: the filter
reads `country.name.common`; the rest of the payload is carried opaquely. -/
structure RawCountry where
  nameCommon : String
  payload : JValue

/-- The `search` step of `GET /api/countries`: a non-empty (truthy) search
string keeps the records whose common name contains it case-insensitively;
an empty search leaves the list untouched. -/
def searchFilter (countries : List RawCountry) (search : String) :
    List RawCountry :=
  if search != "" then
    countries.filter (fun country =>
      strIncludes country.nameCommon.toLower search.toLower)
  else countries

/-- JS `Array.prototype.slice(start, stop)` with JS index clamping (negative
indices count from the end). -/
def jsSlice (xs : List α) (start stop : Int) : List α :=
  let len : Int := xs.length
  let s := if start < 0 then max (len + start) 0 else min start len
  let e := if stop < 0 then max (len + stop) 0 else min stop len
  (xs.take e.toNat).drop s.toNat

/-- The JSON object returned by `GET /api/countries`. -/
structure PageResult where
  total : Nat
  page : Nat
  totalPages : Nat
  data : List RawCountry

/-- The `GET /api/countries` handler body after a successful upstream fetch:
search filter, then pagination.  `page` and `limit` are the numeric values of
the query parameters (`none` when absent, defaulting to 1 and 20);
`Math.ceil` of the real division is `Nat.ceil` over `ℚ`. -/
def listCountries (countries : List RawCountry) (pageParam limitParam : Option Nat)
    (search : String) : PageResult :=
  let page := pageParam.getD 1
  let limit := limitParam.getD 20
  let filtered := searchFilter countries search
  let startIndex : Int := ((page : Int) - 1) * (limit : Int)
  let endIndex : Int := (page : Int) * (limit : Int)
  { total := filtered.length
    page := page
    totalPages := ⌈(filtered.length : ℚ) / (limit : ℚ)⌉₊
    data := jsSlice filtered startIndex endIndex }

/-- One step of the field filter of variant A's detail endpoint: the body of
`fieldList.forEach`, which copies `field` into the accumulator only when
`countryData[field]` is truthy (`if (countryData[field])`). -/
def selectStep (countryData : JValue) (acc : List (String × JValue))
    (field : String) : List (String × JValue) :=
  match jGet countryData field with
  | some v => if jsTruthy v then jsObjInsert acc field v else acc
  | none => acc

/-- The field filter of variant A's detail endpoint: fold the forEach body
over the comma-split field list, starting from the empty object. -/
def selectFields (countryData : JValue) (fieldList : List String) :
    List (String × JValue) :=
  fieldList.foldl (selectStep countryData) []

/-- Modelled from the spec, for comparison with `selectFields`: the mapping
containing exactly the intersection of the requested field names and the
top-level fields present on the record. -/
def specSelectFields (countryData : JValue) (fieldList : List String) :
    List (String × JValue) :=
  fieldList.foldl (fun acc field =>
    match jGet countryData field with
    | some v => jsObjInsert acc field v
    | none => acc) []

/-- The `GET /api/countries/:name` handler of variant A, as a function of the
axios result and the raw `fields` query parameter (`none` when absent).  The
response body is `none` when the handler reaches `res.json(undefined)` (empty
upstream array and no field filter).  When the field filter runs with
`countryData` undefined (or null), `countryData[field]` raises a `TypeError`,
which the surrounding catch routes through `handleApiError` as a failure with
neither a response nor a request. -/
def detailHandlerA (fetchResult : Except AxiosError (List JValue))
    (fields : Option String) : Nat × Option JValue :=
  match fetchResult with
  | .error e =>
    let r := handleApiError e
    (r.1, some r.2)
  | .ok data =>
    let countryData := data[0]?
    match fields with
    | some fs =>
      if fs != "" then
        match countryData with
        | some JValue.null =>
          let r := handleApiError ⟨none, false, "TypeError"⟩
          (r.1, some r.2)
        | some cd => (200, some (.obj (selectFields cd (jsSplitChar fs ','))))
        | none =>
          let r := handleApiError ⟨none, false, "TypeError"⟩
          (r.1, some r.2)
      else (200, countryData)
    | none => (200, countryData)

/-- An incoming HTTP request as Express sees it: method, path, and the query
parameters in the order they appear in the URL.  `originalUrl` is rebuilt
from the path and the raw query string. -/
structure HttpRequest where
  method : String
  path : String
  query : List (String × String)

/-- The `key=value` pairs joined with ampersands. -/
def joinParams : List (String × String) → String
  | [] => ""
  | [p] => p.1 ++ "=" ++ p.2
  | p :: rest => p.1 ++ "=" ++ p.2 ++ "&" ++ joinParams rest

/-- The raw query-string part of the URL, in the order the parameters were
sent. -/
def rawQueryString (q : List (String × String)) : String :=
  match q with
  | [] => ""
  | _ => "?" ++ joinParams q

/-- Express `req.originalUrl`: the path followed by the query string as sent. -/
def originalUrl (r : HttpRequest) : String :=
  r.path ++ rawQueryString r.query

/-- The cache key of variant A's `cacheMiddleware`:
`'__express__' + req.originalUrl`. -/
def cacheKey (r : HttpRequest) : String :=
  "__express__" ++ originalUrl r

/-- The `memory-cache` store: key, cached body, and absolute expiry time in
milliseconds. -/
abbrev CacheEntries := List (String × String × Nat)

/-- The `memory-cache` `get`: an entry answers while `now` has not passed its
expiry time, and is treated as missing afterwards (lazy expiry). -/
def memCacheGet (entries : CacheEntries) (key : String) (now : Nat) :
    Option String :=
  match entries.find? (fun e => e.1 == key) with
  | some (_, body, expire) => if expire < now then none else some body
  | none => none

/-- The `memory-cache` `put(key, body, ttlMs)` at time `now`: overwrite any
previous entry for the key and record expiry `now + ttlMs`. -/
def memCachePut (entries : CacheEntries) (key body : String) (expire : Nat) :
    CacheEntries :=
  (key, body, expire) :: entries.filter (fun e => e.1 != key)

/-- Variant A's `cacheMiddleware(duration)` processing one request at time
`now` (milliseconds): on a hit, replay the cached body via `res.send`, which
leaves the status at Express's default 200; on a miss, run the route handler
(whose eventual response is `handler`), cache the body it sends for
`duration` seconds, and send it with the handler's status. -/
def cacheMiddleware (duration : Nat) (entries : CacheEntries) (url : String)
    (now : Nat) (handler : Nat × String) : CacheEntries × (Nat × String) :=
  match memCacheGet entries ("__express__" ++ url) now with
  | some cachedContent => (entries, (200, cachedContent))
  | none =>
    (memCachePut entries ("__express__" ++ url) handler.2
      (now + duration * 1000), handler)

/-! ### Variant B (`src/rest-countries-app/backend/server.js`) -/

/-- The body variant B sends with every 401. -/
def unauthorizedBody : JValue :=
  .obj [("error", .str "Não autorizado")]

/-- Variant B's `authMiddleware` on the `Authorization` header (`none` when
the header is absent): reject unless the header starts with `Bearer` and a
space and its second space-separated word equals the configured token.
`some r` is the short-circuit 401 response, `none` means the request passes
through. -/
def authMiddleware (auth : Option String) (token : String) :
    Option (Nat × JValue) :=
  if (match auth with
      | none => true
      | some a =>
        !(jsStartsWith a "Bearer ") || ((jsSplitChar a ' ')[1]? != some token)) then
    some (401, unauthorizedBody)
  else none

/-- JS `x || fallback` on an optional-chaining result: `undefined` or a falsy
value picks the fallback. -/
def jsOr (v : Option JValue) (fallback : JValue) : JValue :=
  match v with
  | some x => if jsTruthy x then x else fallback
  | none => fallback

/-- Optional chaining `v?.k1?.k2`-style two-step access: `country.name?.common`
is `optChain country "name" "common"`. -/
def optChain (v : JValue) (k1 k2 : String) : Option JValue :=
  match jGet v k1 with
  | some w => jGet w k2
  | none => none

/-- JS `Object.values(v)` for the shapes that occur in the payload. -/
def objValues : JValue → List JValue
  | .obj fs => fs.map (fun p => p.2)
  | .arr xs => xs
  | _ => []

/-- Variant B's `formatCountry` helper, field by field.  Properties that the
source leaves `undefined` (`maps.googleMaps`, a missing `name`/`symbol` of a
currency, `capital[0]` of an empty array) are conflated with `null`. -/
def formatCountry (country : JValue) : JValue :=
  .obj [
    ("name", jsOr (optChain country "name" "common") .null),
    ("officialName", jsOr (optChain country "name" "official") .null),
    ("code", jsOr (jGet country "cca2") .null),
    ("cca3", jsOr (jGet country "cca3") .null),
    ("flag", jsOr (optChain country "flags" "svg")
      (jsOr (optChain country "flags" "png") .null)),
    ("population", jsOr (jGet country "population") .null),
    ("region", jsOr (jGet country "region") .null),
    ("subregion", jsOr (jGet country "subregion") .null),
    ("capital",
      match jGet country "capital" with
      | some (.arr xs) => (xs[0]?).getD .null
      | _ => .null),
    ("languages",
      match jGet country "languages" with
      | some v => if jsTruthy v then .arr (objValues v) else .null
      | none => .null),
    ("currencies",
      match jGet country "currencies" with
      | some (.obj fs) =>
        .arr (fs.map (fun p =>
          .obj [("code", .str p.1),
                ("name", (jGet p.2 "name").getD .null),
                ("symbol", (jGet p.2 "symbol").getD .null)]))
      | _ => .null),
    ("maps", .obj [
      ("googleMaps", (optChain country "maps" "googleMaps").getD .null),
      ("openStreetMaps", (optChain country "maps" "openStreetMaps").getD .null)]),
    ("timezones", jsOr (jGet country "timezones") .null),
    ("coordinates", jsOr (jGet country "latlng") .null)]

/-- Variant B's upstream fetch for the detail endpoint: try the query with
`fullText=true`; only when that fails with upstream status 400 or 404, issue
exactly one relaxed query without `fullText` and use its result; rethrow any
other failure.  The first component records the queries issued in order
(`true` = with `fullText`), the second the result the handler sees. -/
def fetchByName (upstream : Bool → Except AxiosError (List JValue)) :
    List Bool × Except AxiosError (List JValue) :=
  match upstream true with
  | .ok data => ([true], .ok data)
  | .error e =>
    if e.response.map ErrorResponse.status = some 400 ∨
        e.response.map ErrorResponse.status = some 404 then
      ([true, false], upstream false)
    else
      ([true], .error e)

/-- Body of variant B's empty-result 404 (a legitimate not-found). -/
def notFoundEmptyBody : JValue :=
  .obj [("error", .str "País não encontrado"),
        ("message", .str "Nenhum país corresponde ao termo pesquisado")]

/-- Body of variant B's catch-all 404 (fetch failure). -/
def notFoundCatchBody (msg : String) : JValue :=
  .obj [("error", .str "País não encontrado"), ("details", .str msg)]

/-- The `GET /api/countries/:name` handler of variant B, after the auth and
cache middleware: run the fallback fetch; a failure lands in the catch branch
(404 with the error details), an empty result set gets its own 404 body, and
otherwise the first record is formatted and sent with status 200. -/
def detailHandlerB (upstream : Bool → Except AxiosError (List JValue)) :
    Nat × JValue :=
  match (fetchByName upstream).2 with
  | .error e => (404, notFoundCatchBody e.message)
  | .ok data =>
    match data with
    | [] => (404, notFoundEmptyBody)
    | c :: _ => (200, formatCountry c)

/-! ### Concrete fixtures -/

/-- Whether variant A's field filter keeps field `k` of `countryData`: the
field must be present and its value truthy. -/
def keptField (countryData : JValue) (k : String) : Bool :=
  match jGet countryData k with
  | some v => jsTruthy v
  | none => false

/-- An upstream that answers the fullText query for "congo" with status 400
and the relaxed query with one record. -/
def congoUpstream : Bool → Except AxiosError (List JValue) := fun fullText =>
  if fullText then
    .error ⟨some ⟨400, .null⟩, true, "Request failed with status code 400"⟩
  else
    .ok [.obj [("cca2", .str "CG")]]

/-- A listing request with `page` before `limit` in the query string. -/
def reqPageFirst : HttpRequest :=
  ⟨"GET", "/api/countries", [("page", "1"), ("limit", "2")]⟩

/-- The same logical listing request with the parameters in the other order. -/
def reqLimitFirst : HttpRequest :=
  ⟨"GET", "/api/countries", [("limit", "2"), ("page", "1")]⟩

/-- A GET request to the health route. -/
def reqGetHealth : HttpRequest := ⟨"GET", "/api/health", []⟩

/-- A POST request to the same URL. -/
def reqPostHealth : HttpRequest := ⟨"POST", "/api/health", []⟩

/-- A three-record fixture for the pagination witness. -/
def fixtureCountries : List RawCountry :=
  [⟨"Brazil", .null⟩, ⟨"France", .null⟩, ⟨"Japan", .null⟩]

/-- A record carrying the real restcountries field `independent: false`. -/
def independentFalse : JValue := .obj [("independent", .bool false)]

/-! ## Theorems -/

theorem objLookup_cons (p : String × JValue) (fs : List (String × JValue))
    (k : String) :
    objLookup (p :: fs) k = if p.1 == k then some p.2 else objLookup fs k := by
  unfold objLookup
  cases h : p.1 == k <;> simp [List.find?, h]

theorem objLookup_map_overwrite_ne (fs : List (String × JValue)) (k : String)
    (v : JValue) (k' : String) (hne : k' ≠ k) :
    objLookup (fs.map (fun q => if q.1 == k then (k, v) else q)) k' =
      objLookup fs k' := by
  induction fs with
  | nil => rfl
  | cons q rest ih =>
    rw [List.map_cons, objLookup_cons, objLookup_cons]
    by_cases hq : (q.1 == k) = true
    · rw [if_pos hq]
      have hqk : q.1 = k := by simpa using hq
      have h1 : ((k, v).1 == k') = false := by simp [Ne.symm hne]
      have h2 : (q.1 == k') = false := by simp [hqk, Ne.symm hne]
      rw [h1, h2, if_neg (by simp), if_neg (by simp), ih]
    · rw [if_neg hq]
      cases h : q.1 == k' with
      | true => rfl
      | false => rw [if_neg (by simp), if_neg (by simp), ih]

theorem jsObjInsert_cons_ne (p : String × JValue) (rest : List (String × JValue))
    (k : String) (v : JValue) (hp : (p.1 == k) = false) :
    jsObjInsert (p :: rest) k v = p :: jsObjInsert rest k v := by
  unfold jsObjInsert
  rw [List.any_cons, hp, Bool.false_or]
  by_cases h : rest.any (fun q => q.1 == k) = true
  · rw [if_pos h, if_pos h, List.map_cons, if_neg (by simp [hp])]
  · rw [if_neg h, if_neg h, List.cons_append]

theorem objLookup_jsObjInsert (fs : List (String × JValue)) (k : String)
    (v : JValue) (k' : String) :
    objLookup (jsObjInsert fs k v) k' =
      if k' = k then some v else objLookup fs k' := by
  induction fs with
  | nil =>
    unfold jsObjInsert
    rw [List.any_nil, if_neg (by simp), List.nil_append, objLookup_cons]
    by_cases hk : k' = k
    · subst hk
      rw [if_pos (by simp), if_pos rfl]
    · rw [if_neg (by simp [Ne.symm hk]), if_neg hk]
  | cons p rest ih =>
    by_cases hp : (p.1 == k) = true
    · have hpk : p.1 = k := by simpa using hp
      unfold jsObjInsert
      rw [List.any_cons, hp, Bool.true_or, if_pos rfl, List.map_cons,
        if_pos hp, objLookup_cons]
      by_cases hk : k' = k
      · subst hk
        simp
      · have h1 : ((k, v).1 == k') = false := by simp [Ne.symm hk]
        rw [h1, if_neg (by simp), objLookup_map_overwrite_ne rest k v k' hk,
          if_neg hk, objLookup_cons, hpk]
        rw [show (k == k') = false by simp [Ne.symm hk], if_neg (by simp)]
    · have hp' : (p.1 == k) = false := by simpa using hp
      rw [jsObjInsert_cons_ne p rest k v hp', objLookup_cons, objLookup_cons, ih]
      by_cases hk' : (p.1 == k') = true
      · have : k' ≠ k := by
          intro he
          subst he
          exact absurd (beq_iff_eq.mp hk') (by simpa using hp)
        rw [if_pos hk', if_neg this, if_pos hk']
      · rw [if_neg hk', if_neg hk']

theorem objLookup_foldl_selectStep (cd : JValue) (fl : List String) :
    ∀ (acc : List (String × JValue)) (k : String),
    objLookup (fl.foldl (selectStep cd) acc) k =
      if k ∈ fl ∧ keptField cd k = true then jGet cd k
      else objLookup acc k := by
  induction fl with
  | nil =>
    intro acc k
    rw [List.foldl_nil, if_neg (by simp)]
  | cons f rest ih =>
    intro acc k
    rw [List.foldl_cons, ih]
    by_cases hcond : k ∈ rest ∧ keptField cd k = true
    · rw [if_pos hcond, if_pos ⟨List.mem_cons_of_mem f hcond.1, hcond.2⟩]
    · rw [if_neg hcond]
      by_cases hkf : k = f
      · subst hkf
        unfold selectStep
        cases hj : jGet cd k with
        | none =>
          have hkept : keptField cd k = false := by simp [keptField, hj]
          rw [if_neg (by simp [hkept])]
        | some v =>
          dsimp only
          by_cases htr : jsTruthy v = true
          · rw [if_pos htr, objLookup_jsObjInsert, if_pos rfl,
              if_pos ⟨List.mem_cons_self k rest, by simp [keptField, hj, htr]⟩]
          · rw [if_neg htr]
            have hkept : keptField cd k = false := by
              simp only [keptField, hj]
              simpa using htr
            rw [if_neg (by simp [hkept])]
      · have hnotin : ¬(k ∈ f :: rest ∧ keptField cd k = true) := by
          intro hc
          rcases List.mem_cons.mp hc.1 with h | h
          · exact hkf h
          · exact hcond ⟨h, hc.2⟩
        rw [if_neg hnotin]
        unfold selectStep
        cases hj : jGet cd f with
        | none => rfl
        | some v =>
          dsimp only
          by_cases htr : jsTruthy v = true
          · rw [if_pos htr, objLookup_jsObjInsert, if_neg hkf]
          · rw [if_neg htr]

/-- C1: the detail fetch first issues the exact-match (fullText) query; a
success or a non-400/404 failure of that first attempt is used or propagated
with no second attempt (trace `[true]`); exactly when the first attempt fails
with upstream status 400 or 404, exactly one relaxed second attempt is issued
(trace `[true, false]`) and its result is the one used. -/
theorem fetchByName_fallback_iff
    (upstream : Bool → Except AxiosError (List JValue)) :
    (fetchByName upstream).1.head? = some true
    ∧ (∀ d, upstream true = .ok d → fetchByName upstream = ([true], .ok d))
    ∧ (∀ e, upstream true = .error e →
        (e.response.map ErrorResponse.status = some 400 ∨
         e.response.map ErrorResponse.status = some 404) →
        fetchByName upstream = ([true, false], upstream false))
    ∧ (∀ e, upstream true = .error e →
        ¬(e.response.map ErrorResponse.status = some 400 ∨
          e.response.map ErrorResponse.status = some 404) →
        fetchByName upstream = ([true], .error e)) := by
  refine ⟨?_, ?_, ?_, ?_⟩
  · unfold fetchByName
    cases upstream true with
    | ok d => rfl
    | error e =>
      dsimp only
      split <;> rfl
  · intro d h
    simp only [fetchByName, h]
  · intro e h hs
    simp only [fetchByName, h]
    rw [if_pos hs]
  · intro e h hs
    simp only [fetchByName, h]
    rw [if_neg hs]

/-- C1 witness: upstream rejects the fullText query for "congo" with 400 and
the relaxed retry result is surfaced. -/
theorem fetchByName_fallback_iff_witness :
    fetchByName congoUpstream = ([true, false], .ok [.obj [("cca2", .str "CG")]]) :=
  (fetchByName_fallback_iff congoUpstream).2.2.1
    ⟨some ⟨400, .null⟩, true, "Request failed with status code 400"⟩
    rfl (Or.inl rfl)

/-- C4: `handleApiError` mirrors an upstream error status together with the
upstream details, answers 503 with the fixed non-responsiveness body when no
response arrived, and otherwise answers 500 with a constant body that carries
no internal details. -/
theorem handleApiError_classifies (e : AxiosError) :
    (∀ r, e.response = some r →
      handleApiError e = (r.status, upstreamErrorBody r.data))
    ∧ (e.response = none → e.requestMade = true →
      handleApiError e = (503, unavailableBody))
    ∧ (e.response = none → e.requestMade = false →
      handleApiError e = (500, internalErrorBody)) := by
  refine ⟨?_, ?_, ?_⟩
  · intro r h
    simp only [handleApiError, h]
  · intro h hr
    simp only [handleApiError, h, hr, if_true]
  · intro h hr
    simp [handleApiError, h, hr]

/-- C4 witness: a timeout (request sent, no response) is classified 503. -/
theorem handleApiError_classifies_witness :
    handleApiError ⟨none, true, "timeout of 1000ms exceeded"⟩ =
      (503, unavailableBody) :=
  (handleApiError_classifies ⟨none, true, "timeout of 1000ms exceeded"⟩).2.1 rfl rfl

/-- C10: on a successful upstream fetch returning an empty array, variant A's
detail handler sends status 200 with `undefined` as its body instead of a 404,
while variant B's handler (the only one with the empty-result check) sends its
404 not-found body. -/
theorem detailHandlerA_empty_is_200 :
    detailHandlerA (.ok []) none = (200, none)
    ∧ detailHandlerB (fun _ => .ok []) = (404, notFoundEmptyBody) :=
  ⟨rfl, rfl⟩

/-- C7: when the (fallback-inclusive) fetch of variant B's detail handler
succeeds with an empty result set, the response is a 404 with the dedicated
not-found body, and that body differs from the body produced for any
transport failure reaching the catch branch. -/
theorem detailHandlerB_empty_distinct_404
    (upstream : Bool → Except AxiosError (List JValue)) :
    ((fetchByName upstream).2 = .ok [] →
      detailHandlerB upstream = (404, notFoundEmptyBody))
    ∧ (∀ e, (fetchByName upstream).2 = .error e →
        detailHandlerB upstream = (404, notFoundCatchBody e.message)
        ∧ notFoundCatchBody e.message ≠ notFoundEmptyBody) := by
  constructor
  · intro h
    simp only [detailHandlerB, h]
  · intro e h
    refine ⟨by simp only [detailHandlerB, h], ?_⟩
    intro hEq
    simp [notFoundCatchBody, notFoundEmptyBody] at hEq

/-- C7 witness: an upstream that succeeds with an empty array yields the
dedicated empty-result 404. -/
theorem detailHandlerB_empty_distinct_404_witness :
    detailHandlerB (fun fullText => if fullText then .ok [] else .ok [.null]) =
      (404, notFoundEmptyBody) :=
  (detailHandlerB_empty_distinct_404
    (fun fullText => if fullText then .ok [] else .ok [.null])).1 rfl

/-- C8: the auth guard answers every rejected request, whether the header is
missing, lacks the Bearer prefix, or carries a wrong token, with the identical
401 response, so the response reveals nothing about which failure occurred. -/
theorem authMiddleware_uniform_reject (token : String) (a1 a2 : Option String)
    (h1 : (authMiddleware a1 token).isSome = true)
    (h2 : (authMiddleware a2 token).isSome = true) :
    authMiddleware a1 token = some (401, unauthorizedBody)
    ∧ authMiddleware a1 token = authMiddleware a2 token := by
  have key : ∀ a : Option String, (authMiddleware a token).isSome = true →
      authMiddleware a token = some (401, unauthorizedBody) := by
    intro a ha
    unfold authMiddleware at ha ⊢
    split at ha
    · next hcond => exact if_pos hcond
    · next => simp at ha
  exact ⟨key a1 h1, (key a1 h1).trans (key a2 h2).symm⟩

/-- C8 witness: a missing header and a malformed (non-Bearer) header produce
the identical 401 body; so does a mismatched token. -/
theorem authMiddleware_uniform_reject_witness :
    authMiddleware none "secrettoken123" = some (401, unauthorizedBody)
    ∧ authMiddleware none "secrettoken123" =
        authMiddleware (some "Basic secrettoken123") "secrettoken123"
    ∧ authMiddleware (some "Bearer wrongtoken") "secrettoken123" =
        some (401, unauthorizedBody) :=
  ⟨(authMiddleware_uniform_reject "secrettoken123" none
      (some "Basic secrettoken123") rfl rfl).1,
   (authMiddleware_uniform_reject "secrettoken123" none
      (some "Basic secrettoken123") rfl rfl).2,
   (authMiddleware_uniform_reject "secrettoken123" (some "Bearer wrongtoken")
      none rfl rfl).1⟩

/-- C9: when a URL misses the cache, the handler response is sent as-is and
its body is stored; every request for the same URL within the cache duration
then replays that stored body with Express's default status 200, whatever the
status of the response that populated the cache and whatever the later
handler would have answered. -/
theorem cacheMiddleware_replays_as_200 (duration : Nat) (entries : CacheEntries)
    (url : String) (t : Nat) (status : Nat) (body : String)
    (hmiss : memCacheGet entries ("__express__" ++ url) t = none) :
    (cacheMiddleware duration entries url t (status, body)).2 = (status, body)
    ∧ (∀ tlater handler2, tlater ≤ t + duration * 1000 →
        cacheMiddleware duration
            (cacheMiddleware duration entries url t (status, body)).1 url tlater
            handler2 =
          ((cacheMiddleware duration entries url t (status, body)).1,
            (200, body))) := by
  have hstep : cacheMiddleware duration entries url t (status, body) =
      (memCachePut entries ("__express__" ++ url) body (t + duration * 1000),
        (status, body)) := by
    unfold cacheMiddleware
    rw [hmiss]
  refine ⟨by rw [hstep], ?_⟩
  intro tlater handler2 hle
  have hget : memCacheGet
      (memCachePut entries ("__express__" ++ url) body (t + duration * 1000))
      ("__express__" ++ url) tlater = some body := by
    unfold memCacheGet memCachePut
    rw [List.find?_cons_of_pos _ (by simp)]
    dsimp only
    rw [if_neg (Nat.not_lt.mpr hle)]
  rw [hstep]
  unfold cacheMiddleware
  rw [hget]

/-- C9 witness: a 503 body cached at time 0 is replayed at time 1000 as a
status-200 response. -/
theorem cacheMiddleware_replays_as_200_witness :
    (cacheMiddleware 300 [] "/api/countries" 0 (503, "unavailable")).2 =
      (503, "unavailable")
    ∧ cacheMiddleware 300
        (cacheMiddleware 300 [] "/api/countries" 0 (503, "unavailable")).1
        "/api/countries" 1000 (200, "fresh") =
      ((cacheMiddleware 300 [] "/api/countries" 0 (503, "unavailable")).1,
        (200, "unavailable")) :=
  ⟨(cacheMiddleware_replays_as_200 300 [] "/api/countries" 0 503 "unavailable"
      rfl).1,
   (cacheMiddleware_replays_as_200 300 [] "/api/countries" 0 503 "unavailable"
      rfl).2 1000 (200, "fresh") (by decide)⟩

/-- C5 counterexample: two logically identical listing requests — same
method, same path, the same set of query parameters merely reordered — get
different cache keys, so the key is not a function of the normalized query. -/
theorem cacheKey_not_normalized :
    reqPageFirst.method = reqLimitFirst.method
    ∧ reqPageFirst.path = reqLimitFirst.path
    ∧ reqPageFirst.query.Perm reqLimitFirst.query
    ∧ cacheKey reqPageFirst ≠ cacheKey reqLimitFirst := by
  refine ⟨rfl, rfl, by decide, by decide⟩

/-- C5 amended: the cache key is a deterministic pure function of
`req.originalUrl` alone — two requests share a cache entry exactly when their
raw URLs (path plus query string as sent) coincide; the HTTP method is not
part of the key, and query order or case changes alter it. -/
theorem cacheKey_eq_iff_originalUrl (r1 r2 : HttpRequest) :
    cacheKey r1 = cacheKey r2 ↔ originalUrl r1 = originalUrl r2 := by
  unfold cacheKey
  constructor
  · intro h
    have hdata := congrArg String.data h
    rw [String.data_append, String.data_append] at hdata
    exact String.ext (List.append_cancel_left hdata)
  · intro h
    rw [h]

/-- C5 amended witness: a GET and a POST to the same URL share the key. -/
theorem cacheKey_eq_iff_originalUrl_witness :
    cacheKey reqGetHealth = cacheKey reqPostHealth :=
  (cacheKey_eq_iff_originalUrl reqGetHealth reqPostHealth).mpr rfl

/-- C6: an empty search leaves the listing untouched; a non-empty search
keeps exactly the records whose common name contains the search term as a
case-insensitive substring. -/
theorem searchFilter_spec (countries : List RawCountry) (search : String) :
    (search = "" → searchFilter countries search = countries)
    ∧ (search ≠ "" → ∀ c, c ∈ searchFilter countries search ↔
        c ∈ countries ∧
          strIncludes c.nameCommon.toLower search.toLower = true) := by
  constructor
  · intro h
    subst h
    rfl
  · intro h c
    unfold searchFilter
    rw [if_pos (by simpa using h)]
    exact List.mem_filter

/-- C6 witness: the empty search string returns the unfiltered sequence. -/
theorem searchFilter_spec_witness :
    searchFilter fixtureCountries "" = fixtureCountries :=
  (searchFilter_spec fixtureCountries "").1 rfl

/-- C2 counterexample: the field `independent` is present on the record with
value `false`, so the claimed requested-and-present intersection keeps it, but
the code's truthiness test drops it. -/
theorem selectFields_omits_falsy_present_field :
    selectFields independentFalse ["independent"] ≠
      specSelectFields independentFalse ["independent"] := by
  have h1 : selectFields independentFalse ["independent"] = [] := rfl
  have h2 : specSelectFields independentFalse ["independent"] =
      [("independent", .bool false)] := rfl
  rw [h1, h2]
  exact fun h => List.noConfusion h

/-- C2 amended: the field-selection step returns a mapping containing exactly
the requested field names that are present on the record with a JS-truthy
value; a requested field that is unknown, absent, or present with a falsy
value (null, false, 0, empty string) is silently omitted and never causes an
error. -/
theorem selectFields_truthy_intersection (countryData : JValue)
    (fieldList : List String) (k : String) :
    objLookup (selectFields countryData fieldList) k =
      if k ∈ fieldList ∧ keptField countryData k = true then jGet countryData k
      else none :=
  objLookup_foldl_selectStep countryData fieldList [] k

theorem jsSlice_natCast (xs : List α) (a b : Nat) :
    jsSlice xs (a : Int) (b : Int) = (xs.drop a).take (b - a) := by
  unfold jsSlice
  dsimp only
  rw [if_neg (by omega), if_neg (by omega)]
  have hmin : ∀ m : Nat, (min (m : Int) ((xs.length : Nat) : Int)).toNat =
      min m xs.length := by
    intro m
    rw [← Nat.cast_min, Int.toNat_natCast]
  rw [hmin a, hmin b]
  have htake : xs.take (min b xs.length) = xs.take b := by
    rcases le_total b xs.length with h | h
    · rw [min_eq_left h]
    · rw [min_eq_right h, List.take_length, List.take_of_length_le h]
  rw [htake]
  rcases le_total a xs.length with h | h
  · rw [min_eq_left h, List.drop_take]
  · rw [min_eq_right h, List.drop_of_length_le (List.length_take_le' b xs),
      List.drop_of_length_le h, List.take_nil]

/-- C3: for valid `page` and `limit` the listing response holds exactly the
slice of the search-filtered sequence from `(page-1)*limit` (inclusive) to
`page*limit` (exclusive), hence at most `limit` records; `total` is the
filtered length, `totalPages` is the ceiling of `total / limit`, and absent
parameters behave as `page = 1`, `limit = 20`. -/
theorem listCountries_paginates (countries : List RawCountry)
    (page limit : Nat) (search : String) (hp : 1 ≤ page) (hl : 1 ≤ limit) :
    (listCountries countries (some page) (some limit) search).data =
      ((searchFilter countries search).drop ((page - 1) * limit)).take limit
    ∧ (listCountries countries (some page) (some limit) search).data.length ≤
        limit
    ∧ (listCountries countries (some page) (some limit) search).total =
        (searchFilter countries search).length
    ∧ (listCountries countries (some page) (some limit) search).totalPages =
        ⌈(((searchFilter countries search).length : ℚ) / (limit : ℚ))⌉₊
    ∧ listCountries countries none none search =
        listCountries countries (some 1) (some 20) search := by
  obtain ⟨q, rfl⟩ : ∃ q, page = q + 1 := ⟨page - 1, by omega⟩
  have hsub : (q + 1) * limit - q * limit = limit := by
    rw [Nat.add_mul, Nat.one_mul, Nat.add_sub_cancel_left]
  have hdata :
      (listCountries countries (some (q + 1)) (some limit) search).data =
        ((searchFilter countries search).drop (q * limit)).take limit := by
    unfold listCountries
    dsimp only [Option.getD]
    have h1 : (((q + 1 : Nat) : Int) - 1) * ((limit : Nat) : Int) =
        ((q * limit : Nat) : Int) := by
      push_cast
      ring
    have h2 : ((q + 1 : Nat) : Int) * ((limit : Nat) : Int) =
        (((q + 1) * limit : Nat) : Int) := by
      push_cast
      ring
    rw [h1, h2, jsSlice_natCast, hsub]
  have hq1 : (q + 1) - 1 = q := by omega
  refine ⟨by rw [hdata, hq1], ?_, rfl, rfl, rfl⟩
  rw [hdata]
  exact List.length_take_le _ _

/-- C3 witness: three records, `page = 2`, `limit = 1`, empty search. -/
theorem listCountries_paginates_witness :
    1 ≤ 2 ∧ 1 ≤ 1 ∧
    ((listCountries fixtureCountries (some 2) (some 1) "").data =
        ((searchFilter fixtureCountries "").drop ((2 - 1) * 1)).take 1
      ∧ (listCountries fixtureCountries (some 2) (some 1) "").data.length ≤ 1
      ∧ (listCountries fixtureCountries (some 2) (some 1) "").total =
          (searchFilter fixtureCountries "").length
      ∧ (listCountries fixtureCountries (some 2) (some 1) "").totalPages =
          ⌈(((searchFilter fixtureCountries "").length : ℚ) / ((1 : Nat) : ℚ))⌉₊
      ∧ listCountries fixtureCountries none none "" =
          listCountries fixtureCountries (some 1) (some 20) "") :=
  ⟨by decide, by decide,
    listCountries_paginates fixtureCountries 2 1 "" (by decide) (by decide)⟩
